import Mathlib

/-!
Shallow embedding of `ReferenceArrayField.tsx`
(`src/packages/ra-ui-materialui/src/field/ReferenceArrayField.tsx`).

The file defines two React function components:

* `ReferenceArrayField` — checks that it received exactly one child,
  calls the `useReferenceArrayFieldController` hook with nine
  configuration fields taken from its props (`page` defaulting to 1),
  and returns a `ListContextProvider` element wrapping the memoized
  view with the controller result spread over the original props.

* `ReferenceArrayFieldView` — destructures `children`, `pagination`,
  `className` and `reference` out of its props; while `props.loaded`
  is falsy it renders a `LinearProgress` element; once loaded it
  renders the single child cloned with
  `{...sanitizeRestProps(rest), className, resource: reference}`,
  a literal space, and — when a pagination element was provided and
  `props.total !== undefined` — the pagination element cloned with
  `sanitizeRestProps(rest)`.

JavaScript prop bags are modelled as association lists from `String`
to a `Value` type covering the JS values the component manipulates.
`sanitizeRestProps` lives in a different source file
(`./sanitizeRestProps`), so the view is parametrised by an arbitrary
function `sanitize : Props → Props`; every theorem below holds for all
such functions.  The external controller hook is likewise a parameter
`hook : ControllerArgs → Props`, and `referenceArrayField` additionally
returns the list of hook invocations it performed, so that theorems
can speak about whether and with which arguments the hook was called.
-/

namespace RefArrayField

/-- JavaScript values as far as this component manipulates them:
`undefined`, `null`, booleans, numbers, strings, plain objects,
React elements (a tag together with a props bag), and arrays of
children. -/
inductive Value : Type where
  | vUndefined : Value
  | vNull : Value
  | vBool : Bool → Value
  | vNat : Nat → Value
  | vStr : String → Value
  | vObj : List (String × Value) → Value
  | vElem : String → List (String × Value) → Value
  | vElems : List Value → Value

/-- A props bag: an association list of prop names to values. -/
abbrev Props := List (String × Value)

/-- First value bound to key `k`, if any (JS object property access on
our association-list model of objects). -/
def lookupProp : Props → String → Option Value
  | [], _ => none
  | (k, v) :: rest, key => if k = key then some v else lookupProp rest key

/-- `props.k` in JavaScript: a missing property reads as `undefined`. -/
def getProp (props : Props) (k : String) : Value :=
  (lookupProp props k).getD Value.vUndefined

/-- Destructuring with a default, `const { k = d } = props`: the default
applies exactly when the property is `undefined` (including absent). -/
def getPropD (props : Props) (k : String) (d : Value) : Value :=
  match getProp props k with
  | Value.vUndefined => d
  | v => v

/-- JavaScript truthiness for the values we model. -/
def truthy : Value → Bool
  | Value.vUndefined => false
  | Value.vNull => false
  | Value.vBool b => b
  | Value.vNat n => n != 0
  | Value.vStr s => s != ""
  | Value.vObj _ => true
  | Value.vElem _ _ => true
  | Value.vElems _ => true

/-- `v === undefined` in JavaScript. -/
def isUndefined : Value → Bool
  | Value.vUndefined => true
  | _ => false

/-- Whether a value is a single React element. -/
def isElem : Value → Bool
  | Value.vElem _ _ => true
  | _ => false

/-- `React.Children.count`: `undefined`/`null` count as zero children,
an array counts its entries, and any single value counts as one. -/
def childCount : Value → Nat
  | Value.vUndefined => 0
  | Value.vNull => 0
  | Value.vElems es => es.length
  | _ => 1

/-- Object spread `{...old, ...new}` on our association-list model:
entries of `new` override entries of `old` with the same key.  Lookups
agree with JavaScript; we do not track JS key-insertion order. -/
def mergeProps (old new : Props) : Props :=
  old.filter (fun kv => (lookupProp new kv.1).isNone) ++ new

/-- Rest destructuring `const { a, b, ...rest } = props`:
`rest` is the bag without the extracted keys. -/
def removeKeys (ks : List String) (props : Props) : Props :=
  props.filter (fun kv => !(ks.contains kv.1))

/-- The argument object built for `useReferenceArrayFieldController`
at lines 93–103 of the source: exactly these nine fields and nothing
else. -/
structure ControllerArgs : Type where
  basePath : Value
  filter : Value
  page : Value
  perPage : Value
  record : Value
  reference : Value
  resource : Value
  sort : Value
  source : Value

/-- The nine controller-hook arguments taken from the component's
props, with `page` defaulting to `1` (destructuring default at
line 79). -/
def mkControllerArgs (props : Props) : ControllerArgs :=
  { basePath := getProp props "basePath"
    filter := getProp props "filter"
    page := getPropD props "page" (Value.vNat 1)
    perPage := getProp props "perPage"
    record := getProp props "record"
    reference := getProp props "reference"
    resource := getProp props "resource"
    sort := getProp props "sort"
    source := getProp props "source" }

/-- The usage-error message thrown at lines 89–91. -/
def childErrorMsg : String :=
  "<ReferenceArrayField> only accepts a single child (like <Datagrid>)"

/-- `ReferenceArrayField` (lines 74–109).  Parametrised by the external
controller hook; returns the rendered element (or the thrown error)
together with the list of hook invocations performed.  With exactly one
child it calls the hook once and returns the `ListContextProvider`
element whose `value` is the controller result and whose child is the
memoized view receiving `{...props, ...controllerProps}`. -/
def referenceArrayField (hook : ControllerArgs → Props) (props : Props) :
    Except String Value × List ControllerArgs :=
  if childCount (getProp props "children") ≠ 1 then
    (Except.error childErrorMsg, [])
  else
    let args := mkControllerArgs props
    let controllerProps := hook args
    (Except.ok (Value.vElem "ListContextProvider"
      [("value", Value.vObj controllerProps),
       ("children",
        Value.vElem "PureReferenceArrayFieldView"
          (mergeProps props controllerProps))]),
     [args])

/-- Rendered output of the view: a flat fragment of element and text
nodes (the fragment at lines 171–182 produces the cloned child, a
literal space, and possibly the cloned pagination element). -/
inductive Node : Type where
  | elem : String → Props → Node
  | text : String → Node

/-- The keys destructured out of the view's props at line 164:
`const { children, pagination, className, reference, ...rest } = props`. -/
def viewKeys : List String := ["children", "pagination", "className", "reference"]

/-- Class name produced by the `makeStyles` hook (lines 145–150,
style name `RaReferenceArrayField`, rule `progress`). -/
def progressClassName : String := "RaReferenceArrayField-progress"

/-- The JSX subexpression
`pagination && props.total !== undefined && cloneElement(pagination, sanitizeRestProps(rest))`
(lines 178–180): renders the cloned pagination element exactly when a
pagination element was provided and `total` is defined, and renders
nothing otherwise (a falsy `&&` chain renders nothing; per the prop
types only an element or `undefined` is passed as `pagination`). -/
def paginationPart (sanitize : Props → Props) (pagination total : Value)
    (rest : Props) : List Node :=
  match pagination with
  | Value.vElem ptag pprops =>
    if isUndefined total then []
    else [Node.elem ptag (mergeProps pprops (sanitize rest))]
  | _ => []

/-- `ReferenceArrayFieldView` (lines 161–183), parametrised by the
`sanitizeRestProps` function from the sibling module.  While
`props.loaded` is falsy it returns the `LinearProgress` indicator;
otherwise it returns the single child (`Children.only`, throwing on
anything but a single element) cloned with the sanitized rest props
plus `className` and `resource: reference`, a literal space, and the
pagination part. -/
def viewRender (sanitize : Props → Props) (props : Props) :
    Except String (List Node) :=
  let rest := removeKeys viewKeys props
  if !(truthy (getProp props "loaded")) then
    Except.ok [Node.elem "LinearProgress"
      [("className", Value.vStr progressClassName)]]
  else
    match getProp props "children" with
    | Value.vElem ctag cprops =>
      Except.ok
        (Node.elem ctag
            (mergeProps cprops
              (mergeProps (sanitize rest)
                [("className", getProp props "className"),
                 ("resource", getProp props "reference")]))
          :: Node.text " "
          :: paginationPart sanitize (getProp props "pagination")
               (getProp props "total") rest)
    | _ =>
      Except.error
        "React.Children.only expected to receive a single React element child."

/-- A loaded props bag used to instantiate the theorems: one `Datagrid`
child, a `Pagination` element, a class name, the referenced resource
`tags`, and a controller result (`loaded`, `total`, `ids`) spread in. -/
def loadedProps : Props :=
  [("children", Value.vElem "Datagrid" [("rowClick", Value.vStr "edit")]),
   ("pagination", Value.vElem "Pagination" []),
   ("className", Value.vStr "tags-field"),
   ("reference", Value.vStr "tags"),
   ("loaded", Value.vBool true),
   ("total", Value.vNat 2),
   ("ids", Value.vElems [Value.vNat 1, Value.vNat 2])]

/-- A props bag whose controller result has not loaded yet. -/
def loadingProps : Props :=
  [("children", Value.vElem "Datagrid" []),
   ("reference", Value.vStr "tags"),
   ("loaded", Value.vBool false)]

/-- A caller-side props bag for `ReferenceArrayField` (no `page`, so
the default applies). -/
def fieldProps : Props :=
  [("children", Value.vElem "Datagrid" []),
   ("reference", Value.vStr "tags"),
   ("source", Value.vStr "tag_ids"),
   ("record",
    Value.vObj [("id", Value.vNat 1),
                ("tag_ids", Value.vElems [Value.vNat 1, Value.vNat 2])]),
   ("resource", Value.vStr "posts"),
   ("basePath", Value.vStr "/posts")]

/-- A props bag with two children, violating the single-child rule. -/
def badProps : Props :=
  [("children", Value.vElems [Value.vElem "Datagrid" [], Value.vElem "SingleFieldList" []]),
   ("reference", Value.vStr "tags"),
   ("source", Value.vStr "tag_ids")]

/-- A concrete stand-in for the external controller hook. -/
def demoHook : ControllerArgs → Props := fun _ =>
  [("loaded", Value.vBool true),
   ("total", Value.vNat 2),
   ("ids", Value.vElems [Value.vNat 1, Value.vNat 2])]

/-- The output `viewRender id loadedProps` evaluates to: the cloned
`Datagrid`, the literal space, and the cloned `Pagination`. -/
def loadedOut : List Node :=
  [Node.elem "Datagrid"
    [("rowClick", Value.vStr "edit"),
     ("loaded", Value.vBool true),
     ("total", Value.vNat 2),
     ("ids", Value.vElems [Value.vNat 1, Value.vNat 2]),
     ("className", Value.vStr "tags-field"),
     ("resource", Value.vStr "tags")],
   Node.text " ",
   Node.elem "Pagination"
    [("loaded", Value.vBool true),
     ("total", Value.vNat 2),
     ("ids", Value.vElems [Value.vNat 1, Value.vNat 2])]]

theorem lookupProp_cons (kv : String × Value) (rest : Props) (key : String) :
    lookupProp (kv :: rest) key = if kv.1 = key then some kv.2 else lookupProp rest key := by
  cases kv
  rfl

theorem mergeProps_nil (new : Props) : mergeProps [] new = new := by
  simp [mergeProps]

theorem mergeProps_cons (kv : String × Value) (t new : Props) :
    mergeProps (kv :: t) new =
      if (lookupProp new kv.1).isNone then kv :: mergeProps t new else mergeProps t new := by
  simp only [mergeProps, List.filter_cons]
  split <;> simp

theorem lookupProp_mergeProps_of_some (old new : Props) (k : String) (v : Value)
    (h : lookupProp new k = some v) :
    lookupProp (mergeProps old new) k = some v := by
  induction old with
  | nil => rw [mergeProps_nil]; exact h
  | cons kv t ih =>
    rw [mergeProps_cons]
    by_cases hn : (lookupProp new kv.1).isNone
    · rw [if_pos hn, lookupProp_cons]
      have hk : kv.1 ≠ k := by
        intro he
        rw [he, h] at hn
        exact Bool.noConfusion hn
      rw [if_neg hk]
      exact ih
    · rw [if_neg hn]
      exact ih

theorem lookupProp_removeKeys_of_mem (ks : List String) (props : Props) (k : String)
    (h : ks.contains k = true) :
    lookupProp (removeKeys ks props) k = none := by
  induction props with
  | nil => rfl
  | cons kv t ih =>
    simp only [removeKeys, List.filter_cons]
    by_cases hc : ks.contains kv.1 = true
    · simp only [hc, Bool.not_true, if_neg]
      exact ih
    · have hk : kv.1 ≠ k := by
        intro he
        rw [he] at hc
        exact hc h
      simp only [Bool.not_eq_true] at hc
      simp only [hc, Bool.not_false, if_pos, lookupProp_cons, if_neg hk]
      exact ih

theorem getProp_mergeProps_of_some (old new : Props) (k : String) (v : Value)
    (h : lookupProp new k = some v) :
    getProp (mergeProps old new) k = v := by
  have hm := lookupProp_mergeProps_of_some old new k v h
  simp [getProp, hm]

/-- Claim C1: `ReferenceArrayField` raises an error if and only if the
number of children differs from one.  For every props bag and every
controller hook, the render result is the usage error exactly when the
child count is not `1`, any error it raises is that usage error, and
with exactly one child no error is raised by the component itself. -/
theorem field_error_iff (hook : ControllerArgs → Props) (props : Props) :
    ((referenceArrayField hook props).1 = Except.error childErrorMsg ↔
      childCount (getProp props "children") ≠ 1) ∧
    ∀ e, (referenceArrayField hook props).1 = Except.error e → e = childErrorMsg := by
  by_cases h : childCount (getProp props "children") = 1
  · constructor
    · simp [referenceArrayField, h]
    · intro e he
      simp [referenceArrayField, h] at he
  · constructor
    · simp [referenceArrayField, h]
    · intro e he
      simp [referenceArrayField, h] at he
      exact he.symm

/-- Claim C2: while `loaded` is falsy, `ReferenceArrayFieldView`
returns only the `LinearProgress` loading indicator — the output is
exactly that one element, so the child is not rendered and appears
nowhere in it. -/
theorem view_loading_progress (sanitize : Props → Props) (props : Props)
    (h : truthy (getProp props "loaded") = false) :
    viewRender sanitize props =
      Except.ok [Node.elem "LinearProgress"
        [("className", Value.vStr progressClassName)]] := by
  simp [viewRender, h]

theorem view_loading_progress_witness :
    viewRender id loadingProps =
      Except.ok [Node.elem "LinearProgress"
        [("className", Value.vStr progressClassName)]] :=
  view_loading_progress id loadingProps rfl

/-- Claim C3: once loaded, the view clones the single child and injects
exactly the sanitized rest props (the props bag minus `children`,
`pagination`, `className` and `reference`, passed through
`sanitizeRestProps`), the `className` prop, and a `resource` prop whose
value is the `reference` prop; in particular the injected bag reads
back `className` and `resource` as stated. -/
theorem view_loaded_injects (sanitize : Props → Props) (props : Props)
    (ctag : String) (cprops : Props)
    (hl : truthy (getProp props "loaded") = true)
    (hc : getProp props "children" = Value.vElem ctag cprops) :
    ∃ tail injected,
      injected = mergeProps (sanitize (removeKeys viewKeys props))
        [("className", getProp props "className"),
         ("resource", getProp props "reference")] ∧
      viewRender sanitize props =
        Except.ok (Node.elem ctag (mergeProps cprops injected) :: tail) ∧
      getProp injected "className" = getProp props "className" ∧
      getProp injected "resource" = getProp props "reference" := by
  refine ⟨Node.text " " :: paginationPart sanitize (getProp props "pagination")
      (getProp props "total") (removeKeys viewKeys props), _, rfl, ?_, ?_, ?_⟩
  · simp [viewRender, hl, hc]
  · exact getProp_mergeProps_of_some _ _ _ _ rfl
  · exact getProp_mergeProps_of_some _ _ _ _ rfl

theorem view_loaded_injects_witness :
    ∃ tail injected,
      injected = mergeProps (id (removeKeys viewKeys loadedProps))
        [("className", getProp loadedProps "className"),
         ("resource", getProp loadedProps "reference")] ∧
      viewRender id loadedProps =
        Except.ok (Node.elem "Datagrid"
          (mergeProps [("rowClick", Value.vStr "edit")] injected) :: tail) ∧
      getProp injected "className" = getProp loadedProps "className" ∧
      getProp injected "resource" = getProp loadedProps "reference" :=
  view_loaded_injects id loadedProps "Datagrid" [("rowClick", Value.vStr "edit")] rfl rfl

/-- Claim C4: once loaded, the pagination element is rendered if and
only if a pagination element was provided and the controller's `total`
is defined; everything after the child and the literal space is the
pagination part, and it is nonempty exactly under that condition. -/
theorem view_pagination_iff (sanitize : Props → Props) (props : Props)
    (ctag : String) (cprops : Props)
    (hl : truthy (getProp props "loaded") = true)
    (hc : getProp props "children" = Value.vElem ctag cprops) :
    ∀ out, viewRender sanitize props = Except.ok out →
      out.drop 2 = paginationPart sanitize (getProp props "pagination")
          (getProp props "total") (removeKeys viewKeys props) ∧
      (out.drop 2 ≠ [] ↔
        isElem (getProp props "pagination") = true ∧
        isUndefined (getProp props "total") = false) := by
  intro out hout
  simp [viewRender, hl, hc] at hout
  have hdrop : out.drop 2 = paginationPart sanitize (getProp props "pagination")
      (getProp props "total") (removeKeys viewKeys props) := by
    rw [← hout]
    rfl
  refine ⟨hdrop, ?_⟩
  rw [hdrop]
  cases hp : getProp props "pagination" with
  | vElem ptag pprops =>
    by_cases ht : isUndefined (getProp props "total") = true
    · simp [paginationPart, ht, isElem]
    · simp only [Bool.not_eq_true] at ht
      simp [paginationPart, ht, isElem]
  | vUndefined => simp [paginationPart, isElem]
  | vNull => simp [paginationPart, isElem]
  | vBool b => simp [paginationPart, isElem]
  | vNat n => simp [paginationPart, isElem]
  | vStr s => simp [paginationPart, isElem]
  | vObj o => simp [paginationPart, isElem]
  | vElems es => simp [paginationPart, isElem]

theorem view_pagination_iff_witness :
    loadedOut.drop 2 = paginationPart id (getProp loadedProps "pagination")
        (getProp loadedProps "total") (removeKeys viewKeys loadedProps) ∧
    (loadedOut.drop 2 ≠ [] ↔
      isElem (getProp loadedProps "pagination") = true ∧
      isUndefined (getProp loadedProps "total") = false) :=
  view_pagination_iff id loadedProps "Datagrid" [("rowClick", Value.vStr "edit")]
    rfl rfl loadedOut rfl

/-- Claim C5: with exactly one child, `ReferenceArrayField` invokes the
controller hook exactly once, passing exactly `basePath`, `filter`,
`page` (defaulting to 1 when `undefined`), `perPage`, `record`,
`reference`, `resource`, `sort` and `source` from its props — the
invocation list is the one-element list of exactly that argument
object. -/
theorem field_hook_args (hook : ControllerArgs → Props) (props : Props)
    (h : childCount (getProp props "children") = 1) :
    (referenceArrayField hook props).2 =
      [{ basePath := getProp props "basePath"
         filter := getProp props "filter"
         page := getPropD props "page" (Value.vNat 1)
         perPage := getProp props "perPage"
         record := getProp props "record"
         reference := getProp props "reference"
         resource := getProp props "resource"
         sort := getProp props "sort"
         source := getProp props "source" }] := by
  simp [referenceArrayField, h, mkControllerArgs]

theorem field_hook_args_witness :
    (referenceArrayField demoHook fieldProps).2 =
      [{ basePath := getProp fieldProps "basePath"
         filter := getProp fieldProps "filter"
         page := getPropD fieldProps "page" (Value.vNat 1)
         perPage := getProp fieldProps "perPage"
         record := getProp fieldProps "record"
         reference := getProp fieldProps "reference"
         resource := getProp fieldProps "resource"
         sort := getProp fieldProps "sort"
         source := getProp fieldProps "source" }] :=
  field_hook_args demoHook fieldProps rfl

/-- Claim C6: with exactly one child, the output of
`ReferenceArrayField` is always the memoized view wrapped in a
`ListContextProvider` whose `value` is exactly the controller hook's
result; this holds for every hook result, hence in the loading state
and in the loaded state alike. -/
theorem field_wraps_provider (hook : ControllerArgs → Props) (props : Props)
    (h : childCount (getProp props "children") = 1) :
    (referenceArrayField hook props).1 =
      Except.ok (Value.vElem "ListContextProvider"
        [("value", Value.vObj (hook (mkControllerArgs props))),
         ("children", Value.vElem "PureReferenceArrayFieldView"
            (mergeProps props (hook (mkControllerArgs props))))]) := by
  simp [referenceArrayField, h]

theorem field_wraps_provider_witness :
    (referenceArrayField demoHook fieldProps).1 =
      Except.ok (Value.vElem "ListContextProvider"
        [("value", Value.vObj (demoHook (mkControllerArgs fieldProps))),
         ("children", Value.vElem "PureReferenceArrayFieldView"
            (mergeProps fieldProps (demoHook (mkControllerArgs fieldProps))))]) :=
  field_wraps_provider demoHook fieldProps rfl

/-- Claim C7: once loaded, the output is exactly the cloned child,
the literal space text, and the pagination part (which is the cloned
pagination element when rendered and empty otherwise) — nothing else
is ever added to the loaded output. -/
theorem view_loaded_output (sanitize : Props → Props) (props : Props)
    (ctag : String) (cprops : Props)
    (hl : truthy (getProp props "loaded") = true)
    (hc : getProp props "children" = Value.vElem ctag cprops) :
    viewRender sanitize props =
      Except.ok
        (Node.elem ctag
            (mergeProps cprops
              (mergeProps (sanitize (removeKeys viewKeys props))
                [("className", getProp props "className"),
                 ("resource", getProp props "reference")]))
          :: Node.text " "
          :: paginationPart sanitize (getProp props "pagination")
               (getProp props "total") (removeKeys viewKeys props)) := by
  simp [viewRender, hl, hc]

theorem view_loaded_output_witness :
    viewRender id loadedProps =
      Except.ok
        (Node.elem "Datagrid"
            (mergeProps [("rowClick", Value.vStr "edit")]
              (mergeProps (id (removeKeys viewKeys loadedProps))
                [("className", getProp loadedProps "className"),
                 ("resource", getProp loadedProps "reference")]))
          :: Node.text " "
          :: paginationPart id (getProp loadedProps "pagination")
               (getProp loadedProps "total") (removeKeys viewKeys loadedProps)) :=
  view_loaded_output id loadedProps "Datagrid" [("rowClick", Value.vStr "edit")] rfl rfl

/-- Claim C8: when the child-count check fails, the error is raised
before the controller hook is invoked — for every such props bag the
list of hook invocations is empty, whatever the hook is. -/
theorem field_no_hook_call_on_error (hook : ControllerArgs → Props) (props : Props)
    (h : childCount (getProp props "children") ≠ 1) :
    (referenceArrayField hook props).2 = [] := by
  simp [referenceArrayField, h]

theorem field_no_hook_call_on_error_witness :
    (referenceArrayField demoHook badProps).2 = [] :=
  field_no_hook_call_on_error demoHook badProps (by decide)

/-- Claim C9: the rendered pagination element receives only the
sanitized rest props — its clone merges in exactly
`sanitize rest`, with no `className` and no `resource` injection — and
`rest`, the bag handed to `sanitizeRestProps` for both clones,
contains none of `children`, `pagination`, `className`, `reference`. -/
theorem view_pagination_sanitized_only (sanitize : Props → Props) (props : Props)
    (ctag : String) (cprops : Props) (ptag : String) (pprops : Props)
    (hl : truthy (getProp props "loaded") = true)
    (hc : getProp props "children" = Value.vElem ctag cprops)
    (hp : getProp props "pagination" = Value.vElem ptag pprops)
    (ht : isUndefined (getProp props "total") = false) :
    ∃ pre rest,
      rest = removeKeys viewKeys props ∧
      viewRender sanitize props =
        Except.ok (pre ++ [Node.elem ptag (mergeProps pprops (sanitize rest))]) ∧
      lookupProp rest "children" = none ∧
      lookupProp rest "pagination" = none ∧
      lookupProp rest "className" = none ∧
      lookupProp rest "reference" = none := by
  refine ⟨[Node.elem ctag
      (mergeProps cprops
        (mergeProps (sanitize (removeKeys viewKeys props))
          [("className", getProp props "className"),
           ("resource", getProp props "reference")])),
      Node.text " "], _, rfl, ?_, ?_, ?_, ?_, ?_⟩
  · simp [viewRender, hl, hc, paginationPart, hp, ht]
  · exact lookupProp_removeKeys_of_mem _ _ _ rfl
  · exact lookupProp_removeKeys_of_mem _ _ _ rfl
  · exact lookupProp_removeKeys_of_mem _ _ _ rfl
  · exact lookupProp_removeKeys_of_mem _ _ _ rfl

theorem view_pagination_sanitized_only_witness :
    ∃ pre rest,
      rest = removeKeys viewKeys loadedProps ∧
      viewRender id loadedProps =
        Except.ok (pre ++ [Node.elem "Pagination" (mergeProps [] (id rest))]) ∧
      lookupProp rest "children" = none ∧
      lookupProp rest "pagination" = none ∧
      lookupProp rest "className" = none ∧
      lookupProp rest "reference" = none :=
  view_pagination_sanitized_only id loadedProps "Datagrid"
    [("rowClick", Value.vStr "edit")] "Pagination" [] rfl rfl rfl rfl

/-- Claim C10: `ReferenceArrayFieldView` is deterministic in its props:
two invocations with equal props bags (and the same external
`sanitizeRestProps` collaborator) render equal outputs — the two-run
property justifying the `memo` wrapper `PureReferenceArrayFieldView`. -/
theorem view_deterministic (sanitize : Props → Props) (pa pb : Props)
    (h : pa = pb) :
    viewRender sanitize pa = viewRender sanitize pb := by
  rw [h]

theorem view_deterministic_witness :
    viewRender id loadedProps = viewRender id loadedProps :=
  view_deterministic id loadedProps loadedProps rfl

end RefArrayField
